import Mathlib

/-!
Verification development for the clipboard-history enrichment core of the
hamr repository (files `src/plugins/clipboard/handler.py` and
`src/plugins/clipboard/ocr-indexer.py`).

The Python source is shallowly embedded: pure helpers become Lean
functions on `String` / `List Char`; the stateful coordinator and the
interactive handler become explicit state-passing functions whose calls
to external tools (cliphist, tesseract, magick, os.kill) are supplied as
oracle parameters.  Machine integers are `Nat` with explicit `% 2^32`
where the md5 computation overflows.
-/

set_option maxRecDepth 16000

namespace Hamr

/-! ## Bytes and md5

`get_entry_hash` in both source files is
`hashlib.md5(entry.encode()).hexdigest()[:16]`, so we embed md5 itself.
All arithmetic is `Nat` reduced mod `2^32`.
-/

/-- Reduce a natural number to 32 bits, as every md5 word operation does. -/
def m32 (n : Nat) : Nat := n % 4294967296

/-- Left-rotate a 32-bit word by `c` (0 < c < 32). -/
def rotl (x c : Nat) : Nat := (m32 (x <<< c)) ||| (x >>> (32 - c))

/-- UTF-8 encoding of one character, as Python `str.encode()` produces. -/
def utf8Encode (c : Char) : List Nat :=
  let n := c.toNat
  if n < 128 then [n]
  else if n < 2048 then [192 ||| (n >>> 6), 128 ||| (n &&& 63)]
  else if n < 65536 then
    [224 ||| (n >>> 12), 128 ||| ((n >>> 6) &&& 63), 128 ||| (n &&& 63)]
  else
    [240 ||| (n >>> 18), 128 ||| ((n >>> 12) &&& 63),
     128 ||| ((n >>> 6) &&& 63), 128 ||| (n &&& 63)]

/-- UTF-8 bytes of a string (Python `s.encode()`). -/
def strBytes (s : String) : List Nat := (s.data.map utf8Encode).flatten

/-- The 64 md5 round constants `K[i] = floor(abs(sin(i+1)) * 2^32)`. -/
def md5K : List Nat :=
  [0xd76aa478, 0xe8c7b756, 0x242070db, 0xc1bdceee,
   0xf57c0faf, 0x4787c62a, 0xa8304613, 0xfd469501,
   0x698098d8, 0x8b44f7af, 0xffff5bb1, 0x895cd7be,
   0x6b901122, 0xfd987193, 0xa679438e, 0x49b40821,
   0xf61e2562, 0xc040b340, 0x265e5a51, 0xe9b6c7aa,
   0xd62f105d, 0x02441453, 0xd8a1e681, 0xe7d3fbc8,
   0x21e1cde6, 0xc33707d6, 0xf4d50d87, 0x455a14ed,
   0xa9e3e905, 0xfcefa3f8, 0x676f02d9, 0x8d2a4c8a,
   0xfffa3942, 0x8771f681, 0x6d9d6122, 0xfde5380c,
   0xa4beea44, 0x4bdecfa9, 0xf6bb4b60, 0xbebfbc70,
   0x289b7ec6, 0xeaa127fa, 0xd4ef3085, 0x04881d05,
   0xd9d4d039, 0xe6db99e5, 0x1fa27cf8, 0xc4ac5665,
   0xf4292244, 0x432aff97, 0xab9423a7, 0xfc93a039,
   0x655b59c3, 0x8f0ccc92, 0xffeff47d, 0x85845dd1,
   0x6fa87e4f, 0xfe2ce6e0, 0xa3014314, 0x4e0811a1,
   0xf7537e82, 0xbd3af235, 0x2ad7d2bb, 0xeb86d391]

/-- The md5 per-round left-rotation amounts. -/
def md5S : List Nat :=
  [7, 12, 17, 22, 7, 12, 17, 22, 7, 12, 17, 22, 7, 12, 17, 22,
   5, 9, 14, 20, 5, 9, 14, 20, 5, 9, 14, 20, 5, 9, 14, 20,
   4, 11, 16, 23, 4, 11, 16, 23, 4, 11, 16, 23, 4, 11, 16, 23,
   6, 10, 15, 21, 6, 10, 15, 21, 6, 10, 15, 21, 6, 10, 15, 21]

/-- The md5 nonlinear function for round `i` applied to words B, C, D. -/
def md5F (i b c d : Nat) : Nat :=
  if i < 16 then (b &&& c) ||| ((b ^^^ 0xffffffff) &&& d)
  else if i < 32 then (d &&& b) ||| ((d ^^^ 0xffffffff) &&& c)
  else if i < 48 then b ^^^ c ^^^ d
  else c ^^^ (b ||| (d ^^^ 0xffffffff))

/-- The md5 message-word index used in round `i`. -/
def md5g (i : Nat) : Nat :=
  if i < 16 then i
  else if i < 32 then (5 * i + 1) % 16
  else if i < 48 then (3 * i + 5) % 16
  else (7 * i) % 16

/-- Group a byte list into little-endian 32-bit words. -/
def toWordsLE : List Nat → List Nat
  | b0 :: b1 :: b2 :: b3 :: rest =>
      (b0 + b1 * 256 + b2 * 65536 + b3 * 16777216) :: toWordsLE rest
  | _ => []

/-- One md5 round on the running state (A, B, C, D). -/
def md5step (M : List Nat) (st : Nat × Nat × Nat × Nat) (i : Nat) :
    Nat × Nat × Nat × Nat :=
  let (a, b, c, d) := st
  let f := m32 (md5F i b c d + a + md5K.getD i 0 + M.getD (md5g i) 0)
  (d, m32 (b + rotl f (md5S.getD i 0)), b, c)

/-- Process one 64-byte chunk, folding 64 rounds and adding back. -/
def md5compress (h : Nat × Nat × Nat × Nat) (chunk : List Nat) :
    Nat × Nat × Nat × Nat :=
  let M := toWordsLE chunk
  let (a, b, c, d) := (List.range 64).foldl (md5step M) h
  let (h0, h1, h2, h3) := h
  (m32 (h0 + a), m32 (h1 + b), m32 (h2 + c), m32 (h3 + d))

/-- The eight little-endian bytes of a 64-bit length field. -/
def le8 (n : Nat) : List Nat :=
  [n % 256, n / 256 % 256, n / 65536 % 256, n / 16777216 % 256,
   n / 4294967296 % 256, n / 1099511627776 % 256,
   n / 281474976710656 % 256, n / 72057594037927936 % 256]

/-- md5 padding: 0x80, zeros to 56 mod 64, then the bit length. -/
def md5pad (msg : List Nat) : List Nat :=
  let len := msg.length
  let padLen := (119 - len % 64) % 64
  msg ++ [128] ++ List.replicate padLen 0 ++ le8 (len * 8 % 18446744073709551616)

/-- Split a list into `n` consecutive chunks of 64 bytes. -/
def chunksOf64 : Nat → List Nat → List (List Nat)
  | 0, _ => []
  | n + 1, l => l.take 64 :: chunksOf64 n (l.drop 64)

/-- Little-endian bytes of one 32-bit word. -/
def wordLEbytes (w : Nat) : List Nat :=
  [w % 256, w / 256 % 256, w / 65536 % 256, w / 16777216 % 256]

/-- The 16-byte md5 digest of a byte sequence. -/
def md5bytes (msg : List Nat) : List Nat :=
  let padded := md5pad msg
  let chunks := chunksOf64 (padded.length / 64) padded
  let r := chunks.foldl md5compress (0x67452301, 0xefcdab89, 0x98badcfe, 0x10325476)
  wordLEbytes r.1 ++ wordLEbytes r.2.1 ++ wordLEbytes r.2.2.1 ++ wordLEbytes r.2.2.2

/-- Lowercase hex digit. -/
def hexChar (n : Nat) : Char := "0123456789abcdef".data.getD n '0'

/-- Two lowercase hex digits of one byte. -/
def hexPairChars (n : Nat) : List Char := [hexChar (n / 16), hexChar (n % 16)]

/-- First 16 characters of the lowercase md5 hexdigest of a string, i.e.
Python `hashlib.md5(s.encode()).hexdigest()[:16]` (the hex of the first
8 digest bytes). -/
def md5Hex16 (s : String) : String :=
  String.mk ((((md5bytes (strBytes s)).take 8).map hexPairChars).flatten)

/-! ## EntryClassifier

Embeddings of the line-parsing helpers shared verbatim by
`handler.py` and `ocr-indexer.py`.  The Python regexes are embedded as
direct decidable matchers; `\d` and `\s` are modelled as ASCII digits
and ASCII whitespace (entries produced by cliphist are ASCII in the
positions these classes inspect).
-/

/-- ASCII whitespace, the characters Python `\s` (and `str.strip`)
recognises in the ASCII range: space, tab, newline, carriage return,
vertical tab, form feed. -/
def isPySpace (c : Char) : Bool :=
  c == ' ' || c == '\t' || c == '\x0a' || c == '\x0d' ||
  c == Char.ofNat 11 || c == Char.ofNat 12

/-- Numeric value of a list of ASCII digit characters. -/
def digitsToNat (l : List Char) : Nat :=
  l.foldl (fun a c => a * 10 + (c.toNat - 48)) 0

/-- Embedding of `re.sub(r"^\s*\S+\s+", "", entry)` from `clean_entry`:
if the line is optional whitespace, then a nonempty non-whitespace
token, then at least one whitespace character, drop that whole prefix
(the trailing `\s+` being greedy); otherwise the line is unchanged. -/
def cleanEntryL (s : List Char) : List Char :=
  let s1 := s.dropWhile isPySpace
  let tok := s1.takeWhile (fun c => !(isPySpace c))
  let rest := s1.dropWhile (fun c => !(isPySpace c))
  if tok.isEmpty || rest.isEmpty then s else rest.dropWhile isPySpace

/-- Python `clean_entry`: remove the leading id token for display. -/
def clean_entry (s : String) : String := String.mk (cleanEntryL s.data)

/-- Embedding of `re.match(r"^\s*(\S+)\s+", entry)` group 1 from
`get_entry_id`: the leading non-whitespace token, provided whitespace
follows it; otherwise the empty string. -/
def get_entry_id (s : String) : String :=
  let s1 := s.data.dropWhile isPySpace
  let tok := s1.takeWhile (fun c => !(isPySpace c))
  let rest := s1.dropWhile (fun c => !(isPySpace c))
  if tok.isEmpty || rest.isEmpty then "" else String.mk tok

/-- Embedding of `re.search(r"(\d+)x(\d+)", entry)`: leftmost position
carrying a maximal nonempty digit run, an `x`, and a nonempty digit
run.  (The leading `\d+` needs no backtracking: a shorter run would put
a digit where the `x` must be.) -/
def searchDimsL : List Char → Option (Nat × Nat)
  | [] => none
  | c :: rest =>
    let d1 := (c :: rest).takeWhile Char.isDigit
    if d1.isEmpty then searchDimsL rest
    else
      match (c :: rest).drop d1.length with
      | 'x' :: a2 =>
        let d2 := a2.takeWhile Char.isDigit
        if d2.isEmpty then searchDimsL rest
        else some (digitsToNat d1, digitsToNat d2)
      | _ => searchDimsL rest

/-- Python `get_image_dimensions`. -/
def get_image_dimensions (s : String) : Option (Nat × Nat) :=
  searchDimsL s.data

/-- Remainder of the list after the first occurrence of `pat`, if any
occurrence exists. -/
def dropAfterMatch (pat : List Char) : List Char → Option (List Char)
  | [] => if pat.isPrefixOf [] then some [] else none
  | c :: rest =>
    if pat.isPrefixOf (c :: rest) then some ((c :: rest).drop pat.length)
    else dropAfterMatch pat rest

/-- True when the list ends with the two characters `]]`. -/
def endsWithRB (l : List Char) : Bool :=
  match l.reverse with
  | ']' :: ']' :: _ => true
  | _ => false

/-- Embedding of the full-line match
`re.match(r"^\d+\t\[\[.*binary data.*\d+x\d+.*\]\]$", entry)` from
`is_image`: a nonempty digit run, a tab, `[[`, a newline-free middle
containing `binary data` followed somewhere later by a `\d+x\d+`
pattern, and a closing `]]` at the very end (`.` does not match a
newline). -/
def isImageL (s : List Char) : Bool :=
  let d := s.takeWhile Char.isDigit
  if d.isEmpty then false
  else
    match s.drop d.length with
    | '\t' :: '[' :: '[' :: rest =>
      endsWithRB rest &&
      (let mid := rest.take (rest.length - 2)
       mid.all (fun c => !(c == '\x0a')) &&
       (match dropAfterMatch ("binary data".data) mid with
        | none => false
        | some tail => (searchDimsL tail).isSome))
    | _ => false

/-- Python `is_image`. -/
def is_image (s : String) : Bool := isImageL s.data

/-- Constant `MAX_IMAGES_TO_OCR` from `ocr-indexer.py`. -/
def MAX_IMAGES_TO_OCR : Nat := 20

/-- Constant `MIN_IMAGE_WIDTH` from `ocr-indexer.py`. -/
def MIN_IMAGE_WIDTH : Nat := 100

/-- Constant `MIN_IMAGE_HEIGHT` from `ocr-indexer.py`. -/
def MIN_IMAGE_HEIGHT : Nat := 50

/-- Python `is_image_worth_ocr`: dimensions extracted and both at least
the minimum thresholds. -/
def is_image_worth_ocr (s : String) : Bool :=
  match get_image_dimensions s with
  | none => false
  | some (w, h) => decide (MIN_IMAGE_WIDTH ≤ w) && decide (MIN_IMAGE_HEIGHT ≤ h)

namespace Handler

/-- Python `get_entry_hash` as defined in `handler.py`:
`hashlib.md5(entry.encode()).hexdigest()[:16]`.  Note the digest input
is the whole raw entry line, id token included. -/
def get_entry_hash (entry : String) : String := md5Hex16 entry

end Handler

namespace OcrIndexer

/-- Python `get_entry_hash` as defined in `ocr-indexer.py`, textually
identical to the copy in `handler.py`. -/
def get_entry_hash (entry : String) : String := md5Hex16 entry

end OcrIndexer

/-! ## SearchFilter -/

/-- The scanning loop of `fuzzy_match`: walk the text once, advancing
through the query when the current character equals the next unmatched
query character.  The Python index `qi` is represented by the not yet
matched suffix of the query; the function returns that suffix after the
scan. -/
def fuzzyLoop : List Char → List Char → List Char
  | q, [] => q
  | [], _ :: t => fuzzyLoop [] t
  | qc :: q, c :: t =>
    if c = qc then fuzzyLoop q t else fuzzyLoop (qc :: q) t

/-- Python `fuzzy_match`: lowercase both strings, scan the text once,
and succeed exactly when every query character was consumed
(`qi == len(query)`). -/
def fuzzy_match (query text : String) : Bool :=
  (fuzzyLoop (query.data.map Char.toLower) (text.data.map Char.toLower)).isEmpty

/-! ## Caches as association lists

The on-disk OCR index is a JSON object `hash -> text`; it is modelled
as an association list with distinct keys in insertion order, mirroring
a Python dict.
-/

/-- Dict lookup: first binding of the key, if any. -/
def lookupAssoc (k : String) : List (String × String) → Option String
  | [] => none
  | (k1, v1) :: rest => if k1 == k then some v1 else lookupAssoc k rest

/-- Dict assignment `d[k] = v`: update in place when the key is bound,
append otherwise. -/
def insertAssoc (k v : String) : List (String × String) → List (String × String)
  | [] => [(k, v)]
  | (k1, v1) :: rest =>
    if k1 == k then (k1, v) :: rest else (k1, v1) :: insertAssoc k v rest

/-- Dict deletion `del d[k]`. -/
def removeKeyAssoc (k : String) : List (String × String) → List (String × String)
  | [] => []
  | (k1, v1) :: rest =>
    if k1 == k then removeKeyAssoc k rest else (k1, v1) :: removeKeyAssoc k rest

/-! ## IndexCoordinator

State-passing embedding of `ocr-indexer.py`.  The filesystem visible to
the coordinator is the lock file content, the OCR cache map, and the
set of thumbnail hashes with an existing `{hash}.png` file.  External
processes (cliphist, os.kill, cliphist decode, magick or the direct
byte write, tesseract) are oracle parameters; each oracle call models
one bounded-timeout subprocess invocation.
-/

/-- Outcome of the probe `os.kill(pid, 0)`: success, no such process
(`ProcessLookupError`), or the signal refused for an existing process
of another user (`PermissionError`, errno EPERM — the process exists
but cannot be signalled). -/
inductive KillRes where
  | ok
  | noProcess
  | permissionDenied
deriving DecidableEq, Repr

/-- Outcome of one tesseract invocation: completed with the given
stdout text, or a timeout / missing binary / subprocess error. -/
inductive OcrOutcome where
  | ok (text : String)
  | timeout
deriving DecidableEq, Repr

/-- Embedding of Python `int(s)` on a stripped string: optional sign
followed by a nonempty ASCII digit run (numeric underscores and
non-ASCII digits are not modelled; the lock file the program itself
writes holds plain decimal digits). -/
def parsePyInt (s : String) : Option Int :=
  let l := ((s.data.dropWhile isPySpace).reverse.dropWhile isPySpace).reverse
  let core : List Char → Option Int := fun ds =>
    if ds.isEmpty || !(ds.all Char.isDigit) then none
    else some (Int.ofNat (digitsToNat ds))
  match l with
  | '+' :: ds => core ds
  | '-' :: ds => (core ds).map (fun n => -n)
  | ds => core ds

/-- Filesystem state shared between the two processes: the lock file
content (`none` when absent), the OCR cache map, and the set of hashes
whose thumbnail file exists. -/
structure CoordState where
  lock : Option String
  cache : List (String × String)
  thumbs : List String
deriving DecidableEq, Repr

/-- Inputs of one coordinator run: its own pid, the `os.kill` probe
oracle, the entries returned by `cliphist list`, the `cliphist decode`
oracle (`none` for a failed, timed-out, or empty decode), the
thumbnail-write oracle (False for the exception path of
`generate_thumbnail`), and the tesseract oracle. -/
structure CoordInput where
  myPid : Int
  probe : Int → KillRes
  entries : List String
  decode : String → Option String
  thumbOk : String → Bool
  ocr : String → OcrOutcome

/-- Python `is_already_running`: no lock file means not running; an
unparsable pid or a probe raising `ProcessLookupError` or
`PermissionError` is treated as a stale lock, which is unlinked; only a
successful probe reports a live holder.  Returns the flag and the lock
file content afterwards. -/
def is_already_running (probe : Int → KillRes) (lock : Option String) :
    Bool × Option String :=
  match lock with
  | none => (false, none)
  | some s =>
    match parsePyInt s with
    | none => (false, none)
    | some p =>
      match probe p with
      | .ok => (true, some s)
      | .noProcess => (false, none)
      | .permissionDenied => (false, none)

/-- Python `acquire_lock`: fail while another indexer is reported
running, otherwise write the own pid into the lock file. -/
def acquire_lock (probe : Int → KillRes) (myPid : Int) (lock : Option String) :
    Bool × Option String :=
  match is_already_running probe lock with
  | (true, l) => (false, l)
  | (false, _) => (true, some (toString myPid))

/-- The `top_ocr_candidates` loop of `main`: walk the image entries in
order, collecting those worth OCR, and break once
`MAX_IMAGES_TO_OCR` are collected.  `k` is the remaining capacity,
initially 20. -/
def topLoop (k : Nat) : List String → List String
  | [] => []
  | e :: rest =>
    if is_image_worth_ocr e then
      if k ≤ 1 then [e] else e :: topLoop (k - 1) rest
    else topLoop k rest

/-- The `ocr_needed` selection of `main`: the top candidates whose hash
is not yet a key of the loaded OCR cache. -/
def ocrNeededOf (entries : List String) (cache : List (String × String)) :
    List String :=
  (topLoop MAX_IMAGES_TO_OCR (entries.filter is_image)).filter
    (fun e => (lookupAssoc (OcrIndexer.get_entry_hash e) cache).isNone)

/-- The `thumbs_needed` selection of `main`: all image entries whose
thumbnail file does not exist. -/
def thumbsNeededOf (entries : List String) (thumbs : List String) :
    List String :=
  (entries.filter is_image).filter
    (fun e => !(thumbs.contains (OcrIndexer.get_entry_hash e)))

/-- Python `str.strip()` with no argument: drop leading and trailing
whitespace (modelled over the ASCII whitespace characters). -/
def pyStrip (s : String) : String :=
  String.mk (((s.data.dropWhile isPySpace).reverse.dropWhile isPySpace).reverse)

/-- Python `run_ocr_on_image`: the stripped stdout of tesseract on
success, the empty string when the call times out or errors. -/
def run_ocr_on_image (ocr : String → OcrOutcome) (imageData : String) : String :=
  match ocr imageData with
  | .ok text => pyStrip text
  | .timeout => ""

/-- The thumbnail loop of `main`: decode each entry needing a
thumbnail; on a successful decode, `generate_thumbnail` creates the
file unless it already exists (resize-or-store collapsed into the
`thumbOk` oracle, whose False is the exception path).  Returns the
thumbnail set and the number of decode calls. -/
def thumbLoop (decode : String → Option String) (thumbOk : String → Bool) :
    List String → List String → List String × Nat
  | [], thumbs => (thumbs, 0)
  | e :: rest, thumbs =>
    match decode e with
    | none =>
      let r := thumbLoop decode thumbOk rest thumbs
      (r.1, r.2 + 1)
    | some _ =>
      let h := OcrIndexer.get_entry_hash e
      let thumbs1 :=
        if thumbs.contains h then thumbs
        else if thumbOk e then h :: thumbs else thumbs
      let r := thumbLoop decode thumbOk rest thumbs1
      (r.1, r.2 + 1)

/-- The OCR loop of `main`: decode each entry needing OCR (one decode
call each; a failed or empty decode skips the entry), run tesseract on
the bytes, store the result under the entry hash, and persist.  Returns
the cache, the number of OCR calls, and the number of decode calls. -/
def ocrLoop (decode : String → Option String) (ocr : String → OcrOutcome) :
    List String → List (String × String) → List (String × String) × Nat × Nat
  | [], cache => (cache, 0, 0)
  | e :: rest, cache =>
    match decode e with
    | none =>
      let r := ocrLoop decode ocr rest cache
      (r.1, r.2.1, r.2.2 + 1)
    | some img =>
      let cache1 :=
        insertAssoc (OcrIndexer.get_entry_hash e) (run_ocr_on_image ocr img) cache
      let r := ocrLoop decode ocr rest cache1
      (r.1, r.2.1 + 1, r.2.2 + 1)

/-- Observable outcome of one coordinator run: the filesystem state,
whether the run aborted in `acquire_lock` (the `sys.exit(0)` before the
`try` block), and how many OCR and decode subprocess calls it made. -/
structure CoordOut where
  finalState : CoordState
  aborted : Bool
  ocrCalls : Nat
  decodeCalls : Nat
deriving DecidableEq, Repr

/-- Embedding of `main` in `ocr-indexer.py`.  An abort leaves every
file untouched (the lock still holds the other pid).  Otherwise the own
pid is written, the work sets are computed against the loaded cache,
the two loops run, and the `finally` clause removes the lock on every
exit path, including the early `sys.exit(0)` when there is no work. -/
def runCoordinator (inp : CoordInput) (st : CoordState) : CoordOut :=
  match acquire_lock inp.probe inp.myPid st.lock with
  | (false, lock1) => ⟨⟨lock1, st.cache, st.thumbs⟩, true, 0, 0⟩
  | (true, _) =>
    let ocrNeeded := ocrNeededOf inp.entries st.cache
    let thumbsNeeded := thumbsNeededOf inp.entries st.thumbs
    if ocrNeeded.isEmpty && thumbsNeeded.isEmpty then
      ⟨⟨none, st.cache, st.thumbs⟩, false, 0, 0⟩
    else
      let rt := thumbLoop inp.decode inp.thumbOk thumbsNeeded st.thumbs
      let ro := ocrLoop inp.decode inp.ocr ocrNeeded st.cache
      ⟨⟨none, ro.1, rt.1⟩, false, ro.2.1, rt.2 + ro.2.2⟩

/-! ## ContentCache on disk: `save_ocr_cache`

Both files define `save_ocr_cache` identically:
`CACHE_DIR.mkdir(parents=True, exist_ok=True)` followed by
`OCR_CACHE_FILE.write_text(json.dumps(cache))`.  The function is
embedded as the list of filesystem operations it performs, so that the
shape of the write discipline is itself an object of study.
-/

/-- One filesystem operation performed by a save. -/
inductive FsOp where
  | mkdirp (path : String)
  | writeText (path : String) (content : String)
  | rename (src : String) (tgt : String)
deriving DecidableEq, Repr

/-- The cache root `CACHE_DIR`.  In the source it is derived from
`XDG_CACHE_HOME`; the embedding fixes one concrete root, which every
path below shares. -/
def CACHE_DIR_STR : String := ".cache/hamr/clipboard-thumbs"

/-- The OCR index file `OCR_CACHE_FILE = CACHE_DIR / "ocr-index.json"`. -/
def OCR_CACHE_FILE_STR : String := CACHE_DIR_STR ++ "/ocr-index.json"

/-- Opening brace character. -/
def lbraceChar : Char := Char.ofNat 123

/-- Closing brace character. -/
def rbraceChar : Char := Char.ofNat 125

/-- Four lowercase hex digits of a 16-bit value. -/
def hex4 (n : Nat) : List Char :=
  [hexChar (n / 4096 % 16), hexChar (n / 256 % 16),
   hexChar (n / 16 % 16), hexChar (n % 16)]

/-- JSON escaping of one character as `json.dumps` produces with its
default `ensure_ascii=True`: the two-character escapes for quote,
backslash and the usual control characters, `\uXXXX` for the remaining
control characters and for every code point at or above 127 (a
surrogate pair above the BMP). -/
def jsonEscapeChar (c : Char) : List Char :=
  let n := c.toNat
  if c == '"' then ['\\', '"']
  else if c == '\\' then ['\\', '\\']
  else if c == '\x0a' then ['\\', 'n']
  else if c == '\t' then ['\\', 't']
  else if c == '\x0d' then ['\\', 'r']
  else if n == 8 then ['\\', 'b']
  else if n == 12 then ['\\', 'f']
  else if n < 32 || 127 ≤ n then
    if n < 65536 then '\\' :: 'u' :: hex4 n
    else
      let m := n - 65536
      ('\\' :: 'u' :: hex4 (55296 + m / 1024)) ++
      ('\\' :: 'u' :: hex4 (56320 + m % 1024))
  else [c]

/-- A JSON string literal for `s`. -/
def jsonQuote (s : String) : String :=
  "\"" ++ String.mk ((s.data.map jsonEscapeChar).flatten) ++ "\""

/-- Python `json.dumps` of a string-to-string mapping with the default
separators: a brace-delimited, comma-separated object in key insertion
order. -/
def jsonDumps (l : List (String × String)) : String :=
  String.mk [lbraceChar] ++
  String.intercalate ", " (l.map (fun p => jsonQuote p.1 ++ ": " ++ jsonQuote p.2)) ++
  String.mk [rbraceChar]

/-- Python `save_ocr_cache` as the filesystem operations it performs:
create the cache directory, then write the serialized map directly to
the cache file. -/
def save_ocr_cache_ops (cache : List (String × String)) : List FsOp :=
  [FsOp.mkdirp CACHE_DIR_STR,
   FsOp.writeText OCR_CACHE_FILE_STR (jsonDumps cache)]

/-- Modelled from the spec: the atomic-replace discipline the spec
demands of `save(map)` — among the non-directory operations, exactly a
write to a temporary file followed by a rename of that same file over
the target.  Defined from the words of the spec for comparison with
`save_ocr_cache_ops`. -/
def isAtomicReplaceSave (ops : List FsOp) (target : String) : Bool :=
  match ops.filter (fun op => match op with | .mkdirp _ => false | _ => true) with
  | [FsOp.writeText tmp _, FsOp.rename src tgt] =>
    (tmp == src) && (tgt == target) && !(tmp == target)
  | _ => false

/-! ## Interactive handler: result building

Embedding of `get_entry_results` and its helpers from `handler.py`.
The set of existing thumbnail files is passed explicitly where the
source consults the filesystem.
-/

/-- One entry of the `results` array the handler responds with.  The
constant per-entry action list is represented by the action ids. -/
structure ResultItem where
  id : String
  name : String
  icon : String
  description : String
  verb : Option String
  thumbnail : Option String
  actions : List String
deriving DecidableEq, Repr

/-- The sentinel appended by `get_entry_results` when nothing survived:
`id "__empty__"`, a fixed label, and none of the entry keys. -/
def emptyItem : ResultItem :=
  ⟨"__empty__", "No clipboard entries", "info",
   "Copy something to see it here", none, none, []⟩

/-- Python `get_ocr_text_for_entries`: for each image entry whose hash
is cached, associate the entry with its cached OCR text. -/
def get_ocr_text_for_entries (entries : List String)
    (ocrCache : List (String × String)) : List (String × String) :=
  entries.filterMap (fun e =>
    if is_image e then
      match lookupAssoc (Handler.get_entry_hash e) ocrCache with
      | some t => some (e, t)
      | none => none
    else none)

/-- Python `get_image_thumbnail`: for an image entry whose
`{hash}.png` exists under the cache directory, the path of that file;
never generates anything. -/
def get_image_thumbnail (thumbs : List String) (entry : String) : Option String :=
  if !(is_image entry) then none
  else
    let h := Handler.get_entry_hash entry
    if thumbs.contains h then some (CACHE_DIR_STR ++ "/" ++ h ++ ".png") else none

/-- The per-entry result construction inside the `get_entry_results`
loop, after the entry survived filter and query.  `replace("\n", " ")`
is the character map sending newline to space (the pattern is a single
character); slicing `[:60]` and `[:100]` take code points. -/
def mkResultItem (thumbs : List String) (ocrTexts : List (String × String))
    (entry : String) (isImg : Bool) : ResultItem :=
  if isImg then
    let name :=
      match get_image_dimensions entry with
      | some (w, h) => "Image " ++ toString w ++ "x" ++ toString h
      | none => "Image"
    let ocrText := (lookupAssoc entry ocrTexts).getD ""
    let desc :=
      if ocrText == "" then "Image"
      else
        let preview :=
          String.mk ((ocrText.data.map (fun c => if c == '\x0a' then ' ' else c)).take 60)
        if 60 < ocrText.data.length then preview ++ "..." else preview
    ⟨entry, name, "image", desc, some "Paste",
     get_image_thumbnail thumbs entry, ["copy", "delete"]⟩
  else
    let display0 := clean_entry entry
    let display :=
      if 100 < display0.data.length then String.mk (display0.data.take 100) ++ "..."
      else display0
    ⟨entry, display, "content_paste", "Text", some "Paste", none, ["copy", "delete"]⟩

/-- The filtering loop of `get_entry_results`: drop entries rejected by
the type filter, then (for a nonempty query) keep an entry when the
query fuzzy-matches its cleaned content or, for an image with nonempty
cached OCR text, the OCR text. -/
def buildResults (thumbs : List String) (query filterType : String)
    (ocrTexts : List (String × String)) : List String → List ResultItem
  | [] => []
  | entry :: rest =>
    let isImg := is_image entry
    if filterType == "images" && !isImg then
      buildResults thumbs query filterType ocrTexts rest
    else if filterType == "text" && isImg then
      buildResults thumbs query filterType ocrTexts rest
    else
      let keep :=
        if query == "" then true
        else
          let contentMatch := fuzzy_match query (clean_entry entry)
          let ocrText := (lookupAssoc entry ocrTexts).getD ""
          let ocrMatch := isImg && !(ocrText == "") && fuzzy_match query ocrText
          contentMatch || ocrMatch
      if keep then
        mkResultItem thumbs ocrTexts entry isImg ::
          buildResults thumbs query filterType ocrTexts rest
      else buildResults thumbs query filterType ocrTexts rest

/-- Python `get_entry_results`: the filtered, rendered entries, or the
single `__empty__` sentinel when nothing survived. -/
def get_entry_results (thumbs : List String) (entries : List String)
    (query filterType : String) (ocrTexts : List (String × String)) :
    List ResultItem :=
  let results := buildResults thumbs query filterType ocrTexts entries
  if results.isEmpty then [emptyItem] else results

/-! ## Interactive handler: state effects

The cache-affecting behaviour of the handler `main`, one constructor
per interactive operation.  The state is the persistent filesystem
side: the OCR cache map on disk and the set of thumbnail hashes.
-/

/-- One interactive operation of the handler. -/
inductive HandlerOp where
  | list
  | search (query ctx : String)
  | copy (entry : String)
  | delete (entry : String)
  | wipe
deriving DecidableEq, Repr

/-- Filesystem state the handler can touch: the OCR cache file content
and the set of hashes with a thumbnail file. -/
structure HState where
  cache : List (String × String)
  thumbs : List String
deriving DecidableEq, Repr

/-- Cache effects of the handler `main` by operation.  Listing (the
`initial` step, which also spawns the detached indexer), searching and
copying touch no cache file.  The `delete` action runs `delete_entry`
(unlink the thumbnail of the entry hash when present) and then drops
the hash from the OCR cache, saving it.  The `wipe` action runs
`wipe_clipboard`, which unlinks every file under `CACHE_DIR` —
thumbnails and the OCR index file alike. -/
def handlerStep : HandlerOp → HState → HState
  | .list, st => st
  | .search _ _, st => st
  | .copy _, st => st
  | .delete e, st =>
    let h := Handler.get_entry_hash e
    ⟨removeKeyAssoc h st.cache, st.thumbs.erase h⟩
  | .wipe, _ => ⟨[], []⟩

/-! ## Spec-side definitions for refinement comparisons

These follow the words of the spec, not the source, and exist solely to
be compared with the source-side definitions above.
-/

/-- Whether `pat` occurs as a contiguous run inside the list. -/
def hasSubstr (pat : List Char) : List Char → Bool
  | [] => pat.isEmpty
  | c :: rest => pat.isPrefixOf (c :: rest) || hasSubstr pat rest

/-- Gap-bounded in-order matching after the first query character has
been matched: each next query character must be found within `bound`
skipped text characters.  `k` is the remaining skip budget, reset to
`bound` after every match; both matching and skipping are explored. -/
def gapSeqAux (bound : Nat) : List Char → Nat → List Char → Bool
  | [], _, _ => true
  | _ :: _, _, [] => false
  | qc :: q, k, c :: t =>
    (if c == qc then gapSeqAux bound q bound t else false) ||
    (if k == 0 then false else gapSeqAux bound (qc :: q) (k - 1) t)

/-- Position of the first query character: anywhere in the text, the
rest gap-bounded. -/
def gapSeqFirst (bound : Nat) (qc : Char) (q : List Char) : List Char → Bool
  | [] => false
  | c :: t =>
    (if c == qc then gapSeqAux bound q bound t else false) ||
    gapSeqFirst bound qc q t

/-- Modelled from the spec: the matching rule of §4.4 — the query is a
literal case-insensitive substring of the text, or all query
characters appear in order with no gap between two consecutively
matched characters exceeding the fixed bound.  Defined from the words
of the spec for comparison with `fuzzy_match`. -/
def specMatches (bound : Nat) (query text : String) : Bool :=
  let q := query.data.map Char.toLower
  let t := text.data.map Char.toLower
  hasSubstr q t ||
  (match q with
   | [] => true
   | qc :: qrest => gapSeqFirst bound qc qrest t)

/-- Modelled from the spec: the OCR candidate set claimed in §4.3 —
the top `MAX_IMAGES_TO_OCR` most recent image entries that meet the
size threshold **and** are not yet cached.  Defined from the words of
the claim for comparison with `ocrNeededOf`. -/
def specOcrCandidates (entries : List String) (cache : List (String × String)) :
    List String :=
  ((entries.filter is_image).filter (fun e =>
      is_image_worth_ocr e &&
      (lookupAssoc (OcrIndexer.get_entry_hash e) cache).isNone)).take
    MAX_IMAGES_TO_OCR

/-! ## Lemmas: the greedy fuzzy scan decides the subsequence relation -/

theorem fuzzyLoop_eq_nil_of_sublist :
    ∀ (t q : List Char), q.Sublist t → fuzzyLoop q t = [] := by
  intro t
  induction t with
  | nil =>
    intro q h
    rw [List.sublist_nil.mp h]
    rfl
  | cons c t ih =>
    intro q h
    cases q with
    | nil => simpa [fuzzyLoop] using ih [] (List.nil_sublist t)
    | cons qc q1 =>
      by_cases hc : c = qc
      · subst hc
        simp only [fuzzyLoop, if_pos rfl]
        exact ih q1 (List.cons_sublist_cons.mp h)
      · have h1 : (qc :: q1).Sublist t := by
          cases h with
          | cons _ h2 => exact h2
          | cons₂ _ h2 => exact absurd rfl hc
        simp only [fuzzyLoop, if_neg hc]
        exact ih _ h1

theorem sublist_of_fuzzyLoop_eq_nil :
    ∀ (t q : List Char), fuzzyLoop q t = [] → q.Sublist t := by
  intro t
  induction t with
  | nil =>
    intro q h
    have hq : q = [] := by
      cases q with
      | nil => rfl
      | cons qc q1 => exact h
    simp [hq]
  | cons c t ih =>
    intro q h
    cases q with
    | nil => exact List.nil_sublist _
    | cons qc q1 =>
      by_cases hc : c = qc
      · subst hc
        simp only [fuzzyLoop, if_pos rfl] at h
        exact List.cons_sublist_cons.mpr (ih q1 h)
      · simp only [fuzzyLoop, if_neg hc] at h
        exact List.Sublist.cons c (ih _ h)

/-! ## Lemmas: association lists -/

theorem lookupAssoc_insertAssoc_self (k v : String) :
    ∀ l, lookupAssoc k (insertAssoc k v l) = some v := by
  intro l
  induction l with
  | nil => simp [insertAssoc, lookupAssoc]
  | cons p rest ih =>
    obtain ⟨k1, v1⟩ := p
    by_cases h : k1 = k
    · simp [insertAssoc, lookupAssoc, h]
    · simp [insertAssoc, lookupAssoc, h, ih]

theorem lookupAssoc_insertAssoc_ne (kIns kLook v : String) (h : ¬ kLook = kIns) :
    ∀ l, lookupAssoc kLook (insertAssoc kIns v l) = lookupAssoc kLook l := by
  have h0 : ¬ kIns = kLook := fun he => h he.symm
  intro l
  induction l with
  | nil => simp [insertAssoc, lookupAssoc, h0]
  | cons p rest ih =>
    obtain ⟨k1, v1⟩ := p
    by_cases h1 : k1 = kIns
    · simp [insertAssoc, lookupAssoc, h1, h0]
    · simp [insertAssoc, lookupAssoc, h1, ih]

theorem isSome_lookupAssoc_insertAssoc (kIns kLook v : String) (l : List (String × String))
    (h : (lookupAssoc kLook l).isSome) :
    (lookupAssoc kLook (insertAssoc kIns v l)).isSome := by
  by_cases hk : kLook = kIns
  · subst hk
    simp [lookupAssoc_insertAssoc_self]
  · rwa [lookupAssoc_insertAssoc_ne kIns kLook v hk]

theorem lookupAssoc_removeKeyAssoc_self (k : String) :
    ∀ l, lookupAssoc k (removeKeyAssoc k l) = none := by
  intro l
  induction l with
  | nil => rfl
  | cons p rest ih =>
    obtain ⟨k1, v1⟩ := p
    by_cases h : k1 = k
    · simp [removeKeyAssoc, h, ih]
    · simp [removeKeyAssoc, lookupAssoc, h, ih]

theorem lookupAssoc_removeKeyAssoc_ne (k kLook : String) (h : ¬ kLook = k) :
    ∀ l, lookupAssoc kLook (removeKeyAssoc k l) = lookupAssoc kLook l := by
  intro l
  induction l with
  | nil => rfl
  | cons p rest ih =>
    obtain ⟨k1, v1⟩ := p
    by_cases h1 : k1 = k
    · have h2 : ¬ k = kLook := fun he => h he.symm
      simp [removeKeyAssoc, lookupAssoc, h1, h2, ih]
    · simp [removeKeyAssoc, lookupAssoc, h1, ih]

/-! ## Lemmas: the coordinator loops -/

theorem ocrLoop_lookup_eq (d : String → Option String) (o : String → OcrOutcome)
    (k : String) :
    ∀ (l : List String) (cache : List (String × String)),
      (∀ e ∈ l, ¬ OcrIndexer.get_entry_hash e = k) →
      lookupAssoc k (ocrLoop d o l cache).1 = lookupAssoc k cache := by
  intro l
  induction l with
  | nil => intro cache _; rfl
  | cons e rest ih =>
    intro cache h
    have he : ¬ OcrIndexer.get_entry_hash e = k := h e (by simp)
    have hr : ∀ e1 ∈ rest, ¬ OcrIndexer.get_entry_hash e1 = k :=
      fun e1 h1 => h e1 (List.mem_cons_of_mem e h1)
    cases hd : d e with
    | none => simp only [ocrLoop, hd]; exact ih cache hr
    | some img =>
      simp only [ocrLoop, hd]
      rw [ih _ hr]
      exact lookupAssoc_insertAssoc_ne _ _ _ (fun hk => he hk.symm) cache

theorem ocrLoop_isSome_mono (d : String → Option String) (o : String → OcrOutcome)
    (k : String) :
    ∀ (l : List String) (cache : List (String × String)),
      (lookupAssoc k cache).isSome → (lookupAssoc k (ocrLoop d o l cache).1).isSome := by
  intro l
  induction l with
  | nil => intro cache h; exact h
  | cons e rest ih =>
    intro cache h
    cases hd : d e with
    | none => simp only [ocrLoop, hd]; exact ih cache h
    | some img =>
      simp only [ocrLoop, hd]
      exact ih _ (isSome_lookupAssoc_insertAssoc _ _ _ _ h)

theorem ocrLoop_records (d : String → Option String) (o : String → OcrOutcome) :
    ∀ (l : List String) (cache : List (String × String)) (e : String),
      e ∈ l → (d e).isSome →
      (lookupAssoc (OcrIndexer.get_entry_hash e) (ocrLoop d o l cache).1).isSome := by
  intro l
  induction l with
  | nil => intro cache e he _; exact absurd he (List.not_mem_nil e)
  | cons a rest ih =>
    intro cache e he hdec
    rcases List.mem_cons.mp he with rfl | h1
    · cases hd : d e with
      | none => rw [hd] at hdec; exact absurd hdec (by simp)
      | some img =>
        simp only [ocrLoop, hd]
        exact ocrLoop_isSome_mono d o _ rest _
          (by simp [lookupAssoc_insertAssoc_self])
    · cases hd : d a with
      | none => simp only [ocrLoop, hd]; exact ih cache e h1 hdec
      | some img => simp only [ocrLoop, hd]; exact ih _ e h1 hdec

theorem ocrLoop_calls_le (d : String → Option String) (o : String → OcrOutcome) :
    ∀ (l : List String) (cache : List (String × String)),
      (ocrLoop d o l cache).2.1 ≤ l.length := by
  intro l
  induction l with
  | nil => intro cache; exact Nat.le_refl 0
  | cons e rest ih =>
    intro cache
    cases hd : d e with
    | none =>
      simp only [ocrLoop, hd]
      exact Nat.le_succ_of_le (ih cache)
    | some img =>
      simp only [ocrLoop, hd]
      exact Nat.succ_le_succ (ih _)

theorem thumbLoop_mem (d : String → Option String) (ok : String → Bool) :
    ∀ (l : List String) (thumbs : List String) (h : String),
      h ∈ thumbs → h ∈ (thumbLoop d ok l thumbs).1 := by
  intro l
  induction l with
  | nil => intro thumbs h hh; exact hh
  | cons e rest ih =>
    intro thumbs h hh
    cases hd : d e with
    | none => simp only [thumbLoop, hd]; exact ih thumbs h hh
    | some img =>
      simp only [thumbLoop, hd]
      apply ih
      split
      · exact hh
      · split
        · exact List.mem_cons_of_mem _ hh
        · exact hh

/-! ## Lemmas: candidate selection -/

theorem topLoop_eq_take_filter :
    ∀ (l : List String) (k : Nat), 1 ≤ k →
      topLoop k l = (l.filter is_image_worth_ocr).take k := by
  intro l
  induction l with
  | nil => intro k _; simp [topLoop]
  | cons e rest ih =>
    intro k hk
    cases k with
    | zero => omega
    | succ n =>
      by_cases hw : is_image_worth_ocr e
      · by_cases h1 : n = 0
        · subst h1
          simp [topLoop, hw, List.filter_cons]
        · have hn : 1 ≤ n := Nat.one_le_iff_ne_zero.mpr h1
          have hle : ¬ n + 1 ≤ 1 := by omega
          simp only [topLoop, hw, if_true, if_neg hle, List.filter_cons,
            Nat.add_sub_cancel, ih n hn]
          simp [hw, List.take_succ_cons]
      · simp only [topLoop, hw, if_false, List.filter_cons]
        simp [hw, ih (n + 1) hk]

theorem ocrNeededOf_eq (entries : List String) (cache : List (String × String)) :
    ocrNeededOf entries cache =
      (((entries.filter is_image).filter is_image_worth_ocr).take
          MAX_IMAGES_TO_OCR).filter
        (fun e => (lookupAssoc (OcrIndexer.get_entry_hash e) cache).isNone) := by
  unfold ocrNeededOf
  rw [topLoop_eq_take_filter _ MAX_IMAGES_TO_OCR (by decide)]

theorem ocrNeededOf_length_le (entries : List String) (cache : List (String × String)) :
    (ocrNeededOf entries cache).length ≤ MAX_IMAGES_TO_OCR := by
  rw [ocrNeededOf_eq]
  refine Nat.le_trans (List.length_filter_le _ _) ?h
  rw [List.length_take]
  exact Nat.min_le_left _ _

/-! ## Lemmas: the shape of one coordinator run -/

theorem runCoordinator_shape (inp : CoordInput) (st : CoordState) :
    (∃ l1, runCoordinator inp st = ⟨⟨l1, st.cache, st.thumbs⟩, true, 0, 0⟩) ∨
    (ocrNeededOf inp.entries st.cache = [] ∧
      runCoordinator inp st = ⟨⟨none, st.cache, st.thumbs⟩, false, 0, 0⟩) ∨
    (runCoordinator inp st =
      ⟨⟨none,
         (ocrLoop inp.decode inp.ocr (ocrNeededOf inp.entries st.cache) st.cache).1,
         (thumbLoop inp.decode inp.thumbOk (thumbsNeededOf inp.entries st.thumbs)
             st.thumbs).1⟩,
        false,
        (ocrLoop inp.decode inp.ocr (ocrNeededOf inp.entries st.cache) st.cache).2.1,
        (thumbLoop inp.decode inp.thumbOk (thumbsNeededOf inp.entries st.thumbs)
            st.thumbs).2 +
          (ocrLoop inp.decode inp.ocr (ocrNeededOf inp.entries st.cache) st.cache).2.2⟩) := by
  unfold runCoordinator
  cases hacq : acquire_lock inp.probe inp.myPid st.lock with
  | mk b l1 =>
    cases b with
    | false => exact Or.inl ⟨l1, rfl⟩
    | true =>
      by_cases hemp :
          ((ocrNeededOf inp.entries st.cache).isEmpty &&
            (thumbsNeededOf inp.entries st.thumbs).isEmpty) = true
      · refine Or.inr (Or.inl ⟨?h1, ?h2⟩)
        · exact List.isEmpty_iff.mp (Bool.and_eq_true_iff.mp hemp).1
        · simp [hemp]
      · exact Or.inr (Or.inr (by simp [hemp]))

/-! ## Auxiliary lemmas for the hash shape -/

theorem md5bytes_length (msg : List Nat) : (md5bytes msg).length = 16 := by
  unfold md5bytes
  simp [wordLEbytes]

theorem hexhash_length :
    ∀ l : List Nat, ((l.map hexPairChars).flatten).length = 2 * l.length := by
  intro l
  induction l with
  | nil => rfl
  | cons b rest ih =>
    simp only [List.map_cons, List.flatten_cons, List.length_append, ih,
      hexPairChars, List.length_cons, List.length_nil, List.length_cons]
    omega

/-! ## Claim C1 -/

/-- Counterexample to claim C1: the raw lines `1\thello` and `2\thello`
carry identical content (`clean_entry` agrees) under different leading
sourceId tokens, yet `get_entry_hash` gives them different hashes in
both files, because the digest is taken over the whole raw line. -/
theorem entry_hash_sourceid_ce :
    clean_entry "1\thello" = clean_entry "2\thello" ∧
    get_entry_id "1\thello" = "1" ∧
    get_entry_id "2\thello" = "2" ∧
    Handler.get_entry_hash "1\thello" ≠ Handler.get_entry_hash "2\thello" ∧
    OcrIndexer.get_entry_hash "1\thello" ≠ OcrIndexer.get_entry_hash "2\thello" := by
  decide

/-- Claim C1, amended: `get_entry_hash` digests the entire raw entry
line, sourceId token included, so entries with identical content but
different sourceIds do not in general share a hash; what does hold is
that the two files compute the identical 16-character cache key for the
same raw line, so a given raw line maps to the same cache entry across
the interactive process and the coordinator. -/
theorem entry_hash_full_line_agreement (e : String) :
    Handler.get_entry_hash e = OcrIndexer.get_entry_hash e ∧
    (Handler.get_entry_hash e).length = 16 := by
  refine ⟨rfl, ?h⟩
  have h1 := hexhash_length ((md5bytes (strBytes e)).take 8)
  have h2 : ((md5bytes (strBytes e)).take 8).length = 8 := by
    simp [List.length_take, md5bytes_length]
  calc (Handler.get_entry_hash e).length
      = (((md5bytes (strBytes e)).take 8).map hexPairChars).flatten.length := rfl
    _ = 2 * ((md5bytes (strBytes e)).take 8).length := h1
    _ = 16 := by rw [h2]

/-! ## Claim C2 -/

/-- Counterexample to claim C2: `hd` is not a substring of
`hello world` and its two characters appear in order only nine
characters apart, beyond the claimed bound of 5, so the claimed rule
rejects the pair — yet `fuzzy_match` accepts it, because the code
imposes no gap bound at all. -/
theorem fuzzy_match_gap_bound_ce :
    fuzzy_match "hd" "hello world" = true ∧
    specMatches 5 "hd" "hello world" = false := by
  decide

/-- Claim C2, amended: `fuzzy_match` accepts exactly when every
character of the lowercased query appears in order in the lowercased
text — the plain subsequence relation, with no bound on the gaps
between consecutively matched characters (substring containment is a
special case). -/
theorem fuzzy_match_iff_sublist (q t : String) :
    fuzzy_match q t = true ↔
      (q.data.map Char.toLower).Sublist (t.data.map Char.toLower) := by
  unfold fuzzy_match
  rw [List.isEmpty_iff]
  exact ⟨sublist_of_fuzzyLoop_eq_nil _ _, fuzzyLoop_eq_nil_of_sublist _ _⟩

/-! ## Claim C3 -/

/-- Lock state for the C3 counterexample: the lock file names pid 7. -/
def c3State : CoordState := ⟨some "7", [], []⟩

/-- Input for the C3 counterexample: the probe of pid 7 raises
`PermissionError`, meaning the process exists but belongs to another
user; one OCR-worthy image entry is present. -/
def c3Input : CoordInput :=
  ⟨9, fun _ => KillRes.permissionDenied,
   ["5\t[[ binary data 2 KiB png 200x100 ]]"],
   fun _ => some "IMG", fun _ => true, fun _ => OcrOutcome.ok "text"⟩

/-- Counterexample to claim C3: the lock file names pid 7 and the
probe reports `PermissionError` — the process is currently alive, just
owned by another user — yet the run does not abort: it performs decode
and OCR work and overwrites and then removes the lock file, because
`is_already_running` treats `PermissionError` like a stale lock. -/
theorem coordinator_live_lock_ce :
    c3State.lock = some "7" ∧
    parsePyInt "7" = some 7 ∧
    c3Input.probe 7 = KillRes.permissionDenied ∧
    (runCoordinator c3Input c3State).aborted = false ∧
    (runCoordinator c3Input c3State).ocrCalls = 1 ∧
    (runCoordinator c3Input c3State).decodeCalls = 2 ∧
    (runCoordinator c3Input c3State).finalState.lock = none := by
  decide

/-- Claim C3, amended: if at the start of a run the lock file names a
pid whose `os.kill(pid, 0)` probe succeeds (the holder is alive and
signalable by this user), the run aborts immediately: it performs no
decode or OCR call and leaves the OCR cache, the thumbnails and the
lock file unchanged.  An alive holder whose probe raises
`PermissionError` is misclassified as stale and the run proceeds. -/
theorem coordinator_aborts_when_probe_ok (inp : CoordInput) (st : CoordState)
    (s : String) (p : Int) (h1 : st.lock = some s) (h2 : parsePyInt s = some p)
    (h3 : inp.probe p = KillRes.ok) :
    runCoordinator inp st = ⟨st, true, 0, 0⟩ := by
  simp only [runCoordinator, acquire_lock, is_already_running, h1, h2, h3]
  rw [← h1]

/-- Lock state for the C3 witness. -/
def c3wState : CoordState := ⟨some "7", [("h", "t")], ["h"]⟩

/-- Input for the C3 witness: the probe of pid 7 succeeds. -/
def c3wInput : CoordInput :=
  ⟨9, fun _ => KillRes.ok,
   ["5\t[[ binary data 2 KiB png 200x100 ]]"],
   fun _ => some "IMG", fun _ => true, fun _ => OcrOutcome.ok "text"⟩

/-- Witness for the amended claim C3 at a concrete live lock. -/
theorem coordinator_aborts_when_probe_ok_witness :
    runCoordinator c3wInput c3wState = ⟨c3wState, true, 0, 0⟩ :=
  coordinator_aborts_when_probe_ok c3wInput c3wState "7" 7 rfl (by decide) rfl

/-! ## Claim C4 -/

/-- Coordinator filesystem state for the C4 scenario: empty cache. -/
def c4State : CoordState := ⟨none, [], []⟩

/-- Input for the C4 scenario: one OCR-worthy image entry that decodes
fine, with a tesseract call that times out. -/
def c4Input : CoordInput :=
  ⟨9, fun _ => KillRes.noProcess,
   ["5\t[[ binary data 2 KiB png 200x100 ]]"],
   fun _ => some "IMG", fun _ => true, fun _ => OcrOutcome.timeout⟩

/-- Counterexample to claim C4: the OCR call for the entry times out,
yet after the run the cache maps the entry hash to the empty string —
exactly the record a genuinely empty OCR result would leave — so the
entry is treated as processed and is not a candidate on later runs. -/
theorem ocr_timeout_marks_processed_ce :
    c4Input.ocr "IMG" = OcrOutcome.timeout ∧
    c4State.cache = [] ∧
    lookupAssoc (OcrIndexer.get_entry_hash "5\t[[ binary data 2 KiB png 200x100 ]]")
        (runCoordinator c4Input c4State).finalState.cache = some "" := by
  decide

/-- Claim C4, amended: a timed-out or failed OCR invocation yields the
empty string from `run_ocr_on_image`, and the coordinator records the
result of every OCR attempt with a successful decode under the entry
hash regardless of how the attempt ended — so a timeout is stored as an
empty record, indistinguishable from a genuine no-text result, and the
entry is not retried on later runs. -/
theorem ocr_timeout_recorded_empty :
    (∀ (ocr : String → OcrOutcome) (img : String),
        ocr img = OcrOutcome.timeout → run_ocr_on_image ocr img = "") ∧
    (∀ (inp : CoordInput) (st : CoordState) (e : String),
        e ∈ ocrNeededOf inp.entries st.cache → (inp.decode e).isSome →
        ((lookupAssoc (OcrIndexer.get_entry_hash e)
            (runCoordinator inp st).finalState.cache).isSome ∨
          (runCoordinator inp st).aborted = true)) := by
  constructor
  · intro ocr img h
    simp [run_ocr_on_image, h]
  · intro inp st e he hdec
    rcases runCoordinator_shape inp st with ⟨l1, hrun⟩ | ⟨hemp, hrun⟩ | hrun
    · right
      rw [hrun]
    · rw [hemp] at he
      exact absurd he (List.not_mem_nil e)
    · left
      rw [hrun]
      exact ocrLoop_records _ _ _ _ e he hdec

/-- Witness for the amended claim C4 at the concrete timeout run. -/
theorem ocr_timeout_recorded_empty_witness :
    run_ocr_on_image (fun _ => OcrOutcome.timeout) "IMG" = "" ∧
    ((lookupAssoc (OcrIndexer.get_entry_hash "5\t[[ binary data 2 KiB png 200x100 ]]")
        (runCoordinator c4Input c4State).finalState.cache).isSome ∨
      (runCoordinator c4Input c4State).aborted = true) :=
  ⟨ocr_timeout_recorded_empty.1 (fun _ => OcrOutcome.timeout) "IMG" rfl,
   ocr_timeout_recorded_empty.2 c4Input c4State
     "5\t[[ binary data 2 KiB png 200x100 ]]" (by decide) (by decide)⟩

/-! ## Claim C5 -/

/-- Filesystem state for the C5 scenario: a wiped history has left a
cache record and a thumbnail whose hash matches no entry. -/
def c5State : CoordState := ⟨none, [("deadhash", "x")], ["deadhash"]⟩

/-- Input for the C5 scenario: the history source returns zero
entries. -/
def c5Input : CoordInput :=
  ⟨9, fun _ => KillRes.noProcess, [], fun _ => none, fun _ => true,
   fun _ => OcrOutcome.timeout⟩

/-- Counterexample to claim C5: after a wipe leaving zero entries, a
coordinator run leaves the stale cache record and the stale thumbnail
exactly as they were — the coordinator contains no pruning step at
all. -/
theorem coordinator_prune_ce :
    c5Input.entries = [] ∧
    (runCoordinator c5Input c5State).finalState.cache = [("deadhash", "x")] ∧
    (runCoordinator c5Input c5State).finalState.thumbs = ["deadhash"] := by
  decide

/-- Claim C5, amended: the coordinator never removes anything — every
OCR cache record present before a run is still present with the same
value afterwards, and every thumbnail hash survives the run; hashes of
deleted entries are cleaned up only by the interactive delete and wipe
actions, never by the coordinator. -/
theorem coordinator_never_prunes (inp : CoordInput) (st : CoordState) :
    (∀ k v, lookupAssoc k st.cache = some v →
        lookupAssoc k (runCoordinator inp st).finalState.cache = some v) ∧
    (∀ h, h ∈ st.thumbs → h ∈ (runCoordinator inp st).finalState.thumbs) := by
  rcases runCoordinator_shape inp st with ⟨l1, hrun⟩ | ⟨hemp, hrun⟩ | hrun <;> rw [hrun]
  · exact ⟨fun k v hk => hk, fun h hh => hh⟩
  · exact ⟨fun k v hk => hk, fun h hh => hh⟩
  · constructor
    · intro k v hk
      rw [ocrLoop_lookup_eq]
      · exact hk
      · intro e he heq
        simp only [ocrNeededOf] at he
        have hp := (List.mem_filter.mp he).2
        rw [heq, hk] at hp
        simp at hp
    · intro h hh
      exact thumbLoop_mem _ _ _ _ _ hh

/-- Witness for the amended claim C5 at the concrete stale record. -/
theorem coordinator_never_prunes_witness :
    lookupAssoc "deadhash" (runCoordinator c5Input c5State).finalState.cache =
      some "x" ∧
    "deadhash" ∈ (runCoordinator c5Input c5State).finalState.thumbs :=
  ⟨(coordinator_never_prunes c5Input c5State).1 "deadhash" "x" (by decide),
   (coordinator_never_prunes c5Input c5State).2 "deadhash" (by decide)⟩

/-! ## Claim C6 -/

/-- Counterexample to claim C6: `save_ocr_cache` on the empty map
performs a mkdir and a direct write of the serialized map to the cache
file itself — not the write-temp-then-rename pattern the claim
describes, as `isAtomicReplaceSave` confirms. -/
theorem save_ocr_cache_not_atomic_ce :
    isAtomicReplaceSave (save_ocr_cache_ops []) OCR_CACHE_FILE_STR = false ∧
    save_ocr_cache_ops [] =
      [FsOp.mkdirp CACHE_DIR_STR,
       FsOp.writeText OCR_CACHE_FILE_STR (jsonDumps [])] := by
  decide

/-- Claim C6, amended: every save of the OCR cache writes the
serialized map directly, in place, to the cache file after ensuring the
cache directory exists; no rename and no temporary file is involved,
so the write is a whole-file rewrite rather than an atomic replace. -/
theorem save_ocr_cache_direct_write (c : List (String × String)) :
    ((save_ocr_cache_ops c).all (fun op =>
        match op with
        | FsOp.rename _ _ => false
        | _ => true)) = true ∧
    FsOp.writeText OCR_CACHE_FILE_STR (jsonDumps c) ∈ save_ocr_cache_ops c := by
  exact ⟨rfl, by simp [save_ocr_cache_ops]⟩

/-! ## Claim C7 -/

/-- A concrete OCR-worthy image entry with the given sourceId. -/
def imgEntryNum (i : Nat) : String :=
  toString i ++ "\t[[ binary data 2 KiB png 200x100 ]]"

/-- Twenty-one OCR-worthy image entries, most recent first. -/
def c7entries : List String := (List.range 21).map (fun i => imgEntryNum (i + 1))

/-- A cache already holding the hashes of the twenty most recent
entries. -/
def c7cache : List (String × String) :=
  (List.range 20).map (fun i => (OcrIndexer.get_entry_hash (imgEntryNum (i + 1)), "t"))

/-- Counterexample to claim C7: with the twenty most recent qualifying
images already cached and a twenty-first uncached one behind them, the
code selects nothing for OCR — the cached entries consume all twenty
top slots before the cache filter runs — while the candidate set the
claim describes (top twenty among qualifying and not-yet-processed
entries) contains the twenty-first entry. -/
theorem ocr_candidate_selection_ce :
    ocrNeededOf c7entries c7cache = [] ∧
    specOcrCandidates c7entries c7cache = [imgEntryNum 21] := by
  decide

/-- Claim C7, amended: every run performs at most
`MAX_IMAGES_TO_OCR = 20` OCR invocations, and the set submitted to OCR
equals the not-yet-cached members of the top twenty most recent
size-qualifying image entries — already-cached entries occupy top-20
slots, so fewer than twenty uncached candidates may be selected even
when more exist further down the history. -/
theorem ocr_budget_and_candidate_set (inp : CoordInput) (st : CoordState) :
    (runCoordinator inp st).ocrCalls ≤ MAX_IMAGES_TO_OCR ∧
    ocrNeededOf inp.entries st.cache =
      (((inp.entries.filter is_image).filter is_image_worth_ocr).take
          MAX_IMAGES_TO_OCR).filter
        (fun e => (lookupAssoc (OcrIndexer.get_entry_hash e) st.cache).isNone) := by
  constructor
  · rcases runCoordinator_shape inp st with ⟨l1, hrun⟩ | ⟨hemp, hrun⟩ | hrun <;> rw [hrun]
    · exact Nat.zero_le _
    · exact Nat.zero_le _
    · exact Nat.le_trans (ocrLoop_calls_le _ _ _ _) (ocrNeededOf_length_le _ _)
  · exact ocrNeededOf_eq _ _

/-! ## Claim C8 -/

/-- Claim C8: a lock file naming a dead pid (the probe raises
`ProcessLookupError`) or an unparsable pid is treated as stale — the
next run overwrites the lock with its own pid inside `acquire_lock`
and proceeds with the run instead of aborting. -/
theorem stale_lock_reclaimed (inp : CoordInput) (st : CoordState) (s : String)
    (h1 : st.lock = some s)
    (h2 : parsePyInt s = none ∨
      ∃ p, parsePyInt s = some p ∧ inp.probe p = KillRes.noProcess) :
    acquire_lock inp.probe inp.myPid st.lock = (true, some (toString inp.myPid)) ∧
    (runCoordinator inp st).aborted = false := by
  have hacq :
      acquire_lock inp.probe inp.myPid st.lock = (true, some (toString inp.myPid)) := by
    rcases h2 with h2 | ⟨p, hp, hprobe⟩
    · simp [acquire_lock, is_already_running, h1, h2]
    · simp [acquire_lock, is_already_running, h1, hp, hprobe]
  refine ⟨hacq, ?h⟩
  unfold runCoordinator
  rw [hacq]
  by_cases hemp :
      ((ocrNeededOf inp.entries st.cache).isEmpty &&
        (thumbsNeededOf inp.entries st.thumbs).isEmpty) = true
  · simp [hemp]
  · simp [hemp]

/-- Lock state for the C8 witness: a lock naming dead pid 7. -/
def c8wState : CoordState := ⟨some "7", [], []⟩

/-- Input for the C8 witness: every probe raises
`ProcessLookupError`. -/
def c8wInput : CoordInput :=
  ⟨9, fun _ => KillRes.noProcess, [], fun _ => none, fun _ => true,
   fun _ => OcrOutcome.timeout⟩

/-- Witness for claim C8 at a concrete dead-pid lock. -/
theorem stale_lock_reclaimed_witness :
    acquire_lock c8wInput.probe c8wInput.myPid c8wState.lock =
      (true, some (toString c8wInput.myPid)) ∧
    (runCoordinator c8wInput c8wState).aborted = false :=
  stale_lock_reclaimed c8wInput c8wState "7" rfl (Or.inr ⟨7, by decide, rfl⟩)

/-! ## Claim C9 -/

/-- Handler filesystem state for the C9 counterexample: the entry
`1\ta` has a cache record and a thumbnail. -/
def c9State : HState :=
  ⟨[(Handler.get_entry_hash "1\ta", "txt")], [Handler.get_entry_hash "1\ta"]⟩

/-- Counterexample to claim C9: the interactive delete action removes
the entry hash from the OCR cache and deletes its thumbnail, and the
wipe action clears the whole cache directory — the interactive handler
does mutate the OCR records and thumbnail files. -/
theorem handler_mutates_cache_ce :
    handlerStep (HandlerOp.delete "1\ta") c9State ≠ c9State ∧
    handlerStep (HandlerOp.delete "1\ta") c9State = ⟨[], []⟩ ∧
    handlerStep HandlerOp.wipe c9State ≠ c9State := by
  decide

/-- Claim C9, amended: the list, search and copy operations leave the
OCR cache and the thumbnails unchanged, but delete removes exactly the
deleted entry hash from both (all other cache keys keep their values),
and wipe clears the whole cache directory — cache file, thumbnails and
all. -/
theorem handler_cache_effects (st : HState) (q c e k : String) :
    handlerStep HandlerOp.list st = st ∧
    handlerStep (HandlerOp.search q c) st = st ∧
    handlerStep (HandlerOp.copy e) st = st ∧
    lookupAssoc (Handler.get_entry_hash e)
      (handlerStep (HandlerOp.delete e) st).cache = none ∧
    (¬ k = Handler.get_entry_hash e →
      lookupAssoc k (handlerStep (HandlerOp.delete e) st).cache =
        lookupAssoc k st.cache) ∧
    (handlerStep (HandlerOp.delete e) st).thumbs =
      st.thumbs.erase (Handler.get_entry_hash e) ∧
    handlerStep HandlerOp.wipe st = ⟨[], []⟩ := by
  refine ⟨rfl, rfl, rfl, ?h4, ?h5, rfl, rfl⟩
  · exact lookupAssoc_removeKeyAssoc_self _ _
  · intro hk
    exact lookupAssoc_removeKeyAssoc_ne _ _ hk _

/-- Handler state for the C9 witness. -/
def c9wState : HState := ⟨[("a", "b")], ["c"]⟩

/-- Witness for the amended claim C9 at concrete state and keys. -/
theorem handler_cache_effects_witness :
    handlerStep HandlerOp.list c9wState = c9wState ∧
    handlerStep (HandlerOp.search "q" "ctx") c9wState = c9wState ∧
    handlerStep (HandlerOp.copy "1\ta") c9wState = c9wState ∧
    lookupAssoc (Handler.get_entry_hash "1\ta")
      (handlerStep (HandlerOp.delete "1\ta") c9wState).cache = none ∧
    lookupAssoc "k" (handlerStep (HandlerOp.delete "1\ta") c9wState).cache =
      lookupAssoc "k" c9wState.cache ∧
    (handlerStep (HandlerOp.delete "1\ta") c9wState).thumbs =
      c9wState.thumbs.erase (Handler.get_entry_hash "1\ta") ∧
    handlerStep HandlerOp.wipe c9wState = ⟨[], []⟩ := by
  obtain ⟨h1, h2, h3, h4, h5, h6, h7⟩ :=
    handler_cache_effects c9wState "q" "ctx" "1\ta" "k"
  exact ⟨h1, h2, h3, h4, h5 (by decide), h6, h7⟩

/-! ## Claim C10 -/

/-- Claim C10: `get_entry_results` never returns an empty list — when
no entry survives the type filter and query it returns exactly the
single `__empty__` sentinel, so the interactive path always has
something to render. -/
theorem results_nonempty_sentinel (thumbs entries : List String)
    (query filterType : String) (ocrTexts : List (String × String)) :
    get_entry_results thumbs entries query filterType ocrTexts ≠ [] ∧
    (buildResults thumbs query filterType ocrTexts entries = [] →
      get_entry_results thumbs entries query filterType ocrTexts = [emptyItem]) := by
  have h2 : buildResults thumbs query filterType ocrTexts entries = [] →
      get_entry_results thumbs entries query filterType ocrTexts = [emptyItem] := by
    intro he
    unfold get_entry_results
    rw [he]
    rfl
  refine ⟨?h1, h2⟩
  unfold get_entry_results
  cases hb : buildResults thumbs query filterType ocrTexts entries with
  | nil => simp
  | cons r rs => simp

/-- Witness for claim C10 at the empty history. -/
theorem results_nonempty_sentinel_witness :
    get_entry_results [] [] "" "" [] = [emptyItem] ∧
    get_entry_results [] [] "" "" [] ≠ [] :=
  ⟨(results_nonempty_sentinel [] [] "" "" []).2 rfl,
   (results_nonempty_sentinel [] [] "" "" []).1⟩

end Hamr
